import Mathlib

/-!
Shallow embedding of `src/programs/recovery-room/src/lib.rs` (the Recovery
Room lottery program) and proofs about its round lifecycle, participation
accounting, and sqrt-weighted winner selection.

Modelling conventions:
* `Pubkey` is modelled as `Nat` (only equality of keys matters to the logic).
* Rust `i64` timestamps are `Int`; `u32`/`u64` counters are `Nat`.
* The `f64` arithmetic of `select_winner_sqrt_weighted` is modelled over `ℚ`
  (exact arithmetic), with the square root left as a parameter
  `sqrtf : Nat → ℚ` (the double-precision `sqrt` is not expressible exactly;
  every theorem that needs it only assumes `sqrtf` is positive on positive
  inputs, which holds for the real `sqrt`).
* `(u128::MAX as f64)` rounds to `2 ^ 128` under IEEE-754 round-to-nearest
  (`2 ^ 128 - 1` lies within half an ulp of `2 ^ 128`), so the normalisation
  denominator is modelled as the exact constant `2 ^ 128`.
* Fallible Rust code returns `Except`; a Rust `.unwrap()` that could fail is
  modelled by an explicit outcome (`SelectResult` below, `Option` around
  `consume_randomness`).
-/

namespace RecoveryRoom

/-- Error codes of the program (`RecoveryRoomError` enum in the source).
`DuplicateToken` does not appear in the source enum: it is modelled from the
spec for the missing `register_token` instruction (see `register_token`). -/
inductive RecoveryRoomError where
  | RoundNotActive
  | RoundEnded
  | RoundNotEnded
  | InvalidTokenCount
  | PreviousRoundNotComplete
  | InvalidRoundStatus
  | NoParticipants
  | VrfNotResolved
  | AlreadyParticipated
  | InsufficientLoss
  | DuplicateToken
deriving DecidableEq, Repr

/-- Round lifecycle states (`RoundStatus` enum in the source). -/
inductive RoundStatus where
  | Active
  | VrfRequested
  | Complete
deriving DecidableEq, Repr

/-- `ProtocolState` account (authority and bump omitted: only equality of
keys would matter and no claim mentions them). -/
structure ProtocolState where
  round_duration : Int
  min_loss_percentage : Nat
  max_tokens_per_user : Nat
  current_round : Nat
  total_rounds_completed : Nat
deriving DecidableEq, Repr

/-- `RoundState` account (bump omitted). `vrf_result` holds the delivered
32-byte buffer as a list of byte values. -/
structure RoundState where
  round_id : Nat
  start_time : Int
  end_time : Int
  total_participants : Nat
  total_token_entries : Nat
  status : RoundStatus
  vrf_result : Option (List Nat)
  winner_token : Option Nat
deriving DecidableEq, Repr

/-- `TokenEntry` struct: one submitted token of a participation. -/
structure TokenEntry where
  token_mint : Nat
  ticker : String
  loss_amount_usd : Nat
  holdings : Nat
deriving DecidableEq, Repr

/-- `Participation` account (bump omitted). -/
structure Participation where
  user : Nat
  round_id : Nat
  tokens : List TokenEntry
  timestamp : Int
deriving DecidableEq, Repr

/-- `TokenPoolEntry` struct: aggregate per-token submission counter. -/
structure TokenPoolEntry where
  token_mint : Nat
  ticker : String
  submission_count : Nat
  color : String
deriving DecidableEq, Repr

/-- `TokenPool` account: the per-round pool of registered tokens. -/
structure TokenPool where
  round_id : Nat
  entries : List TokenPoolEntry
deriving DecidableEq, Repr

/-- The all-zero 32-byte buffer, the oracle's "not yet resolved" sentinel. -/
def zero32 : List Nat := List.replicate 32 0

/-- `u128::from_le_bytes` on a byte list (little-endian). -/
def u128_from_le (bytes : List Nat) : Nat :=
  bytes.foldr (fun b acc => acc * 256 + b) 0

/-- Outcome of `select_winner_sqrt_weighted`: `ok` a winner, `err` a program
error, or `panic` for the `entries.last().unwrap()` panicking on an empty
pool (the source's only possible panic in that function). -/
inductive SelectResult where
  | ok (winner : Nat)
  | err (e : RecoveryRoomError)
  | panic
deriving DecidableEq, Repr

/-- The qualifying entries of a pool: those with `submission_count > 0`, in
the pool's stored order (the `if entry.submission_count > 0` filter of the
weight-building loop). -/
def qualifying (entries : List TokenPoolEntry) : List TokenPoolEntry :=
  entries.filter (fun e => 0 < e.submission_count)

/-- The `weights` vector built by the first loop of
`select_winner_sqrt_weighted`: `(token_mint, sqrt(submission_count))` for
each qualifying entry, in stored order. -/
def poolWeights (sqrtf : Nat → ℚ) (entries : List TokenPoolEntry) :
    List (Nat × ℚ) :=
  (qualifying entries).map (fun e => (e.token_mint, sqrtf e.submission_count))

/-- `total_weight`: the sum accumulated by the same loop. -/
def totalWeight (sqrtf : Nat → ℚ) (entries : List TokenPoolEntry) : ℚ :=
  ((poolWeights sqrtf entries).map Prod.snd).sum

/-- `(u128::MAX as f64)`: rounds to exactly `2 ^ 128` in double precision. -/
def u128MaxAsF64 : ℚ := 2 ^ 128

/-- `target = normalized * total_weight` where
`normalized = vrf_value / (u128::MAX as f64)`. -/
def selectTarget (sqrtf : Nat → ℚ) (entries : List TokenPoolEntry)
    (vrf_value : Nat) : ℚ :=
  ((vrf_value : ℚ) / u128MaxAsF64) * totalWeight sqrtf entries

/-- The winner-finding loop: accumulate each weight and return the first
token whose accumulated sum reaches `target` (`if target <= accumulated`). -/
def scanSelect (target : ℚ) : ℚ → List (Nat × ℚ) → Option Nat
  | _, [] => none
  | accumulated, (token, weight) :: rest =>
      if target ≤ accumulated + weight then some token
      else scanSelect target (accumulated + weight) rest

/-- `select_winner_sqrt_weighted`: sqrt-weighted winner selection, modelled
over exact rationals with the square root as the parameter `sqrtf`. The
source's local `total_weight`, `weights` and `target` are the named
definitions `totalWeight`, `poolWeights` and `selectTarget`; the
`require!(total_weight > 0.0)` is the `if`, the winner-finding loop is
`scanSelect`, and the `entries.last().unwrap()` fallback is the final
`match` (`panic` when the pool is empty). -/
def select_winner_sqrt_weighted (sqrtf : Nat → ℚ) (token_pool : TokenPool)
    (vrf_value : Nat) : SelectResult :=
  if 0 < totalWeight sqrtf token_pool.entries then
    match scanSelect (selectTarget sqrtf token_pool.entries vrf_value) 0
        (poolWeights sqrtf token_pool.entries) with
    | some token => SelectResult.ok token
    | none =>
        match token_pool.entries.getLast? with
        | some e => SelectResult.ok e.token_mint
        | none => SelectResult.panic
  else SelectResult.err RecoveryRoomError.NoParticipants

/-- `start_round`: the `require!` only checks that the previous round
account is present (`previous_round.is_some()`); it never reads its status. -/
def start_round (protocol : ProtocolState)
    (previous_round : Option RoundState) (now : Int) :
    Except RecoveryRoomError (ProtocolState × RoundState) :=
  if protocol.current_round = 0 ∨ previous_round.isSome then
    let protocol' := { protocol with current_round := protocol.current_round + 1 }
    let round : RoundState :=
      { round_id := protocol'.current_round
        start_time := now
        end_time := now + protocol.round_duration
        total_participants := 0
        total_token_entries := 0
        status := RoundStatus.Active
        vrf_result := none
        winner_token := none }
    Except.ok (protocol', round)
  else Except.error RecoveryRoomError.PreviousRoundNotComplete

/-- The `find`-and-increment step of the participation loop: bump
`submission_count` of the first pool entry with the given mint, if any
(an absent mint is silently skipped, as in the source). -/
def incrementPool (mint : Nat) : List TokenPoolEntry → List TokenPoolEntry
  | [] => []
  | e :: rest =>
      if e.token_mint = mint then
        { e with submission_count := e.submission_count + 1 } :: rest
      else e :: incrementPool mint rest

/-- The whole `for entry in &token_entries` loop over the pool. -/
def applyEntries (token_entries : List TokenEntry)
    (pool : List TokenPoolEntry) : List TokenPoolEntry :=
  token_entries.foldl (fun p en => incrementPool en.token_mint p) pool

/-- `participate`: validations, then the stats and pool updates. -/
def participate (protocol : ProtocolState) (round : RoundState)
    (pool : TokenPool) (user : Nat) (token_entries : List TokenEntry)
    (now : Int) :
    Except RecoveryRoomError (RoundState × Participation × TokenPool) :=
  if round.status ≠ RoundStatus.Active then
    Except.error RecoveryRoomError.RoundNotActive
  else if ¬ now < round.end_time then
    Except.error RecoveryRoomError.RoundEnded
  else if ¬ (0 < token_entries.length ∧
      token_entries.length ≤ protocol.max_tokens_per_user) then
    Except.error RecoveryRoomError.InvalidTokenCount
  else
    let participation : Participation :=
      { user := user
        round_id := round.round_id
        tokens := token_entries
        timestamp := now }
    let round' :=
      { round with
          total_participants := round.total_participants + 1
          total_token_entries :=
            round.total_token_entries + token_entries.length }
    let pool' := { pool with entries := applyEntries token_entries pool.entries }
    Except.ok (round', participation, pool')

/-- `request_randomness`: the three `require!` checks in source order, then
the transition to `VrfRequested` (the Switchboard CPI itself is the external
oracle request and carries no round-state logic). -/
def request_randomness (round : RoundState) (now : Int) :
    Except RecoveryRoomError RoundState :=
  if ¬ round.end_time ≤ now then
    Except.error RecoveryRoomError.RoundNotEnded
  else if round.status ≠ RoundStatus.Active then
    Except.error RecoveryRoomError.InvalidRoundStatus
  else if ¬ 0 < round.total_token_entries then
    Except.error RecoveryRoomError.NoParticipants
  else Except.ok { round with status := RoundStatus.VrfRequested }

/-- `consume_randomness`: status check, zero-sentinel check, then winner
selection and the transition to `Complete`. The outer `Option` models the
possibility of a Rust panic inside `select_winner_sqrt_weighted`
(`none` = panic); `result_buffer` is the VRF buffer read from the oracle
account. -/
def consume_randomness (protocol : ProtocolState) (round : RoundState)
    (result_buffer : List Nat) (token_pool : TokenPool) (sqrtf : Nat → ℚ) :
    Option (Except RecoveryRoomError (ProtocolState × RoundState)) :=
  if round.status ≠ RoundStatus.VrfRequested then
    some (Except.error RecoveryRoomError.InvalidRoundStatus)
  else if result_buffer = zero32 then
    some (Except.error RecoveryRoomError.VrfNotResolved)
  else
    let vrf_value := u128_from_le (result_buffer.take 16)
    let round1 := { round with vrf_result := some result_buffer }
    match select_winner_sqrt_weighted sqrtf token_pool vrf_value with
    | SelectResult.ok winner =>
        some (Except.ok
          ({ protocol with
              total_rounds_completed := protocol.total_rounds_completed + 1 },
           { round1 with
              winner_token := some winner
              status := RoundStatus.Complete }))
    | SelectResult.err e => some (Except.error e)
    | SelectResult.panic => none

/-- Modelled from the spec: `register_token` is not implemented in `src/`
(the source only notes "In production, you'd use a separate instruction to
register tokens"); modelled from spec §4.3: create a `TokenPoolEntry` with
`submission_count = 0`, failing with `DuplicateToken` when the token is
already registered in the round's pool. -/
def register_token (pool : TokenPool) (token_mint : Nat) (ticker : String)
    (color : String) : Except RecoveryRoomError TokenPool :=
  if pool.entries.any (fun e => e.token_mint = token_mint) then
    Except.error RecoveryRoomError.DuplicateToken
  else
    Except.ok
      { pool with
          entries := pool.entries ++
            [{ token_mint := token_mint
               ticker := ticker
               submission_count := 0
               color := color }] }

/-- Sum of `submission_count` over a pool's entries. -/
def sumCounts (entries : List TokenPoolEntry) : Nat :=
  (entries.map (fun e => e.submission_count)).sum

/-- Cumulative weight of the first `k` qualifying entries (running
`accumulated` sum of the winner-finding loop after `k` iterations). -/
def cumWeight (sqrtf : Nat → ℚ) (entries : List TokenPoolEntry) (k : Nat) : ℚ :=
  (((poolWeights sqrtf entries).map Prod.snd).take k).sum

/-! Concrete instances used by witnesses (Scenario B of the spec: token X
with 4 submissions, weight 2; token Y with 1 submission, weight 1). The
square roots of 4 and 1 are exact in double precision, so `sqrtB` agrees
with the source's `f64::sqrt` on every submission count that occurs in the
witnesses. -/

def sqrtB : Nat → ℚ := fun n => if n = 4 then 2 else if n = 1 then 1 else (n : ℚ)

def entryX : TokenPoolEntry :=
  { token_mint := 1, ticker := "X", submission_count := 4, color := "red" }

def entryY : TokenPoolEntry :=
  { token_mint := 2, ticker := "Y", submission_count := 1, color := "green" }

def poolB : TokenPool := { round_id := 1, entries := [entryX, entryY] }

def proto0 : ProtocolState :=
  { round_duration := 3600
    min_loss_percentage := 80
    max_tokens_per_user := 3
    current_round := 0
    total_rounds_completed := 0 }

def round0 : RoundState :=
  { round_id := 1
    start_time := 0
    end_time := 3600
    total_participants := 0
    total_token_entries := 0
    status := RoundStatus.Active
    vrf_result := none
    winner_token := none }

/-- A delivered VRF buffer that is not the zero sentinel; its first 16
little-endian bytes encode the value 7. -/
def buf7 : List Nat := 7 :: List.replicate 31 0

/-- An empty pool for the conservation counterexample. -/
def poolE : TokenPool := { round_id := 1, entries := [] }

/-- A submitted token that is not registered in `poolE`. -/
def entryZ : TokenEntry :=
  { token_mint := 5, ticker := "Z", loss_amount_usd := 44076, holdings := 9 }

/-- A round whose counters already satisfy conservation against `poolB`
(five pool submissions, five counted entries). -/
def roundB : RoundState :=
  { round0 with total_participants := 2, total_token_entries := 5 }

/-- A submission referencing the registered token X of `poolB`. -/
def entryXsub : TokenEntry :=
  { token_mint := 1, ticker := "X", loss_amount_usd := 100, holdings := 3 }

/-- A round awaiting its VRF result. -/
def roundReq : RoundState :=
  { round0 with total_token_entries := 5, status := RoundStatus.VrfRequested }

/-- A round that has already been resolved. -/
def roundDone : RoundState :=
  { round0 with status := RoundStatus.Complete }

/-- Scenario A's round: opened at t=0 with duration 3600, two entries. -/
def roundA : RoundState :=
  { round0 with total_participants := 1, total_token_entries := 2 }

/-- Scenario B's pool with a `round_id` that does not match `roundReq`
(the account constraint gap exercised by C9). -/
def poolM : TokenPool := { poolB with round_id := 99 }

/-! Lemmas about the participation loop. -/

theorem incrementPool_mints (m : Nat) (l : List TokenPoolEntry) :
    (incrementPool m l).map (fun e => e.token_mint) =
      l.map (fun e => e.token_mint) := by
  induction l with
  | nil => rfl
  | cons e rest ih =>
      by_cases h : e.token_mint = m
      · simp [incrementPool, h]
      · simp [incrementPool, h, ih]

theorem incrementPool_sum (m : Nat) (l : List TokenPoolEntry)
    (hm : m ∈ l.map (fun e => e.token_mint)) :
    sumCounts (incrementPool m l) = sumCounts l + 1 := by
  induction l with
  | nil => simp at hm
  | cons e rest ih =>
      by_cases h : e.token_mint = m
      · simp only [incrementPool, if_pos h, sumCounts, List.map_cons,
          List.sum_cons]
        omega
      · have hm' : m ∈ rest.map (fun e => e.token_mint) := by
          rcases List.mem_map.mp hm with ⟨x, hx, hxm⟩
          rcases List.mem_cons.mp hx with hx0 | hx1
          · exact absurd (hx0 ▸ hxm) h
          · exact List.mem_map.mpr ⟨x, hx1, hxm⟩
        have hrec := ih hm'
        simp only [incrementPool, if_neg h, sumCounts, List.map_cons,
          List.sum_cons] at hrec ⊢
        omega

theorem applyEntries_sum (token_entries : List TokenEntry)
    (pool : List TokenPoolEntry)
    (hreg : ∀ e ∈ token_entries,
      e.token_mint ∈ pool.map (fun p => p.token_mint)) :
    sumCounts (applyEntries token_entries pool) =
      sumCounts pool + token_entries.length := by
  induction token_entries generalizing pool with
  | nil => simp [applyEntries]
  | cons e rest ih =>
      have h0 : e.token_mint ∈ pool.map (fun p => p.token_mint) :=
        hreg e (List.mem_cons_self e rest)
      have hreg' : ∀ x ∈ rest,
          x.token_mint ∈
            (incrementPool e.token_mint pool).map (fun p => p.token_mint) := by
        intro x hx
        rw [incrementPool_mints]
        exact hreg x (List.mem_cons_of_mem e hx)
      have hfold : applyEntries (e :: rest) pool =
          applyEntries rest (incrementPool e.token_mint pool) := rfl
      rw [hfold, ih _ hreg', incrementPool_sum _ _ h0]
      simp [List.length_cons]
      omega

/-- Claim C1: `select_winner_sqrt_weighted` is deterministic — two calls on
the same pool and the same randomness value return the identical result; it
is a pure function of its inputs (the shallow embedding is a plain function
with no state). -/
theorem select_winner_deterministic (sqrtf : Nat → ℚ) (P Q : TokenPool)
    (r s : Nat) (hP : P = Q) (hr : r = s) :
    select_winner_sqrt_weighted sqrtf P r =
      select_winner_sqrt_weighted sqrtf Q s := by
  rw [hP, hr]

/-- Witness for C1 at Scenario B's pool and randomness 5. -/
theorem select_winner_deterministic_witness :
    poolB = poolB ∧ (5 : Nat) = 5 ∧
      select_winner_sqrt_weighted sqrtB poolB 5 =
        select_winner_sqrt_weighted sqrtB poolB 5 :=
  ⟨rfl, rfl, select_winner_deterministic sqrtB poolB poolB 5 5 rfl rfl⟩

/-- Counterexample to Claim C3 as stated: submitting a token that was never
registered in the pool increments `total_token_entries` but no
`submission_count`, so the conservation equation fails after a successful
`participate` (the source's `find` returns `None` and the entry is silently
skipped). -/
theorem participate_conservation_cex :
    participate proto0 round0 poolE 7 [entryZ] 10 =
      Except.ok
        ({ round0 with total_participants := 1, total_token_entries := 1 },
         { user := 7, round_id := 1, tokens := [entryZ], timestamp := 10 },
         poolE) ∧
    (1 : Nat) ≠ sumCounts poolE.entries := by
  constructor
  · rfl
  · decide

/-- Claim C3 (amended): after every successful `participate` whose submitted
tokens are all registered in the pool, conservation is preserved — if
`total_token_entries` equalled the pool's summed `submission_count` before
the call, it does so after. -/
theorem participate_conservation (protocol : ProtocolState)
    (round : RoundState) (pool : TokenPool) (user : Nat)
    (token_entries : List TokenEntry) (now : Int) (round' : RoundState)
    (pa : Participation) (pool' : TokenPool)
    (hreg : ∀ e ∈ token_entries,
      e.token_mint ∈ pool.entries.map (fun p => p.token_mint))
    (hpre : round.total_token_entries = sumCounts pool.entries)
    (hok : participate protocol round pool user token_entries now =
      Except.ok (round', pa, pool')) :
    round'.total_token_entries = sumCounts pool'.entries := by
  unfold participate at hok
  split at hok
  · exact absurd hok (by simp)
  · split at hok
    · exact absurd hok (by simp)
    · split at hok
      · exact absurd hok (by simp)
      · rw [Except.ok.injEq, Prod.mk.injEq] at hok
        obtain ⟨h1, h2⟩ := hok
        rw [Prod.mk.injEq] at h2
        obtain ⟨_, h3⟩ := h2
        subst h1
        subst h3
        show round.total_token_entries + token_entries.length =
          sumCounts (applyEntries token_entries pool.entries)
        rw [applyEntries_sum _ _ hreg, hpre]

/-- Witness for the amended C3: submitting registered token X on top of a
conserving state keeps the counter equal to the pool's summed counts. -/
theorem participate_conservation_witness :
    (∀ e ∈ [entryXsub],
      e.token_mint ∈ poolB.entries.map (fun p => p.token_mint)) ∧
    roundB.total_token_entries = sumCounts poolB.entries ∧
    (6 : Nat) = sumCounts (applyEntries [entryXsub] poolB.entries) :=
  ⟨by decide, by decide,
   participate_conservation proto0 roundB poolB 9 [entryXsub] 10 _ _ _
     (by decide) (by decide) rfl⟩

/-- Claim C4 (exhibiting the code bug): `start_round` succeeds with a fresh
round even though the supplied previous round's status is `Active`, because
the source `require!` only checks `previous_round.is_some()` and never reads
the status; the spec demands a `PreviousRoundNotComplete` failure here. The
successful result also shows the claimed postconditions (`round_id`
incremented, `status = Active`, `end_time = start_time + round_duration`,
counters zeroed). -/
theorem start_round_accepts_incomplete_previous :
    round0.status = RoundStatus.Active ∧
    start_round { proto0 with current_round := 1 } (some round0) 100 =
      Except.ok
        ({ proto0 with current_round := 2 },
         { round_id := 2
           start_time := 100
           end_time := 3700
           total_participants := 0
           total_token_entries := 0
           status := RoundStatus.Active
           vrf_result := none
           winner_token := none }) :=
  ⟨rfl, rfl⟩

/-- Claim C5: `consume_randomness` succeeds only from `VrfRequested` and
moves the round to `Complete`; from any other status (before
`request_randomness`, or after a first successful resolution has set
`Complete`) it fails with `InvalidRoundStatus`, so resolution succeeds at
most once and the status never moves backward or skips. -/
theorem consume_randomness_at_most_once (protocol : ProtocolState)
    (round : RoundState) (result_buffer : List Nat) (pool : TokenPool)
    (sqrtf : Nat → ℚ) :
    (∀ protocol' round',
      consume_randomness protocol round result_buffer pool sqrtf =
        some (Except.ok (protocol', round')) →
      round.status = RoundStatus.VrfRequested ∧
      round'.status = RoundStatus.Complete) ∧
    (round.status ≠ RoundStatus.VrfRequested →
      consume_randomness protocol round result_buffer pool sqrtf =
        some (Except.error RecoveryRoomError.InvalidRoundStatus)) := by
  constructor
  · intro protocol' round' h
    unfold consume_randomness at h
    by_cases hs : round.status = RoundStatus.VrfRequested
    · refine ⟨hs, ?_⟩
      rw [if_neg (by simp [hs])] at h
      split at h
      · exact absurd h (by simp)
      · cases hsel : select_winner_sqrt_weighted sqrtf pool
            (u128_from_le (List.take 16 result_buffer)) with
        | ok w =>
            simp only [hsel] at h
            rw [Option.some.injEq, Except.ok.injEq, Prod.mk.injEq] at h
            obtain ⟨_, h2⟩ := h
            rw [← h2]
        | err e =>
            simp only [hsel] at h
            exact absurd h (by simp)
        | panic =>
            simp only [hsel] at h
            exact absurd h (by simp)
    · rw [if_pos hs] at h
      exact absurd h (by simp)
  · intro hs
    unfold consume_randomness
    rw [if_pos hs]

/-- Witness for C5: a second resolution attempt on an already `Complete`
round fails with `InvalidRoundStatus`. -/
theorem consume_randomness_at_most_once_witness :
    consume_randomness proto0 roundDone buf7 poolB sqrtB =
      some (Except.error RecoveryRoomError.InvalidRoundStatus) :=
  (consume_randomness_at_most_once proto0 roundDone buf7 poolB sqrtB).2
    (by decide)

/-- Claim C6: delivering the all-zero 32-byte buffer to a round in
`VrfRequested` fails with `VrfNotResolved` and produces no successful
result (the functional embedding returns no updated state on an error, so
`status`, `vrf_result` and `winner_token` are untouched). -/
theorem consume_randomness_zero_sentinel (protocol : ProtocolState)
    (round : RoundState) (pool : TokenPool) (sqrtf : Nat → ℚ)
    (hs : round.status = RoundStatus.VrfRequested) :
    consume_randomness protocol round zero32 pool sqrtf =
      some (Except.error RecoveryRoomError.VrfNotResolved) ∧
    ∀ out, consume_randomness protocol round zero32 pool sqrtf ≠
      some (Except.ok out) := by
  have h : consume_randomness protocol round zero32 pool sqrtf =
      some (Except.error RecoveryRoomError.VrfNotResolved) := by
    unfold consume_randomness
    rw [if_neg (by simp [hs]), if_pos rfl]
  refine ⟨h, ?_⟩
  intro out hcontra
  rw [h] at hcontra
  exact absurd hcontra (by simp)

/-- Witness for C6 at a concrete pending round. -/
theorem consume_randomness_zero_sentinel_witness :
    roundReq.status = RoundStatus.VrfRequested ∧
    consume_randomness proto0 roundReq zero32 poolB sqrtB =
      some (Except.error RecoveryRoomError.VrfNotResolved) :=
  ⟨rfl, (consume_randomness_zero_sentinel proto0 roundReq poolB sqrtB rfl).1⟩

/-- Claim C7: `request_randomness` fails with `RoundNotEnded` before
`end_time`, with `InvalidRoundStatus` when the round is not `Active`, with
`NoParticipants` when `total_token_entries = 0`, and otherwise transitions
the round to `VrfRequested` (error precedence follows the source's check
order). -/
theorem request_randomness_spec (round : RoundState) (now : Int) :
    (now < round.end_time →
      request_randomness round now =
        Except.error RecoveryRoomError.RoundNotEnded) ∧
    (round.end_time ≤ now → round.status ≠ RoundStatus.Active →
      request_randomness round now =
        Except.error RecoveryRoomError.InvalidRoundStatus) ∧
    (round.end_time ≤ now → round.status = RoundStatus.Active →
      round.total_token_entries = 0 →
      request_randomness round now =
        Except.error RecoveryRoomError.NoParticipants) ∧
    (round.end_time ≤ now → round.status = RoundStatus.Active →
      0 < round.total_token_entries →
      request_randomness round now =
        Except.ok { round with status := RoundStatus.VrfRequested }) := by
  refine ⟨?_, ?_, ?_, ?_⟩
  · intro h
    unfold request_randomness
    rw [if_pos (by omega)]
  · intro h hs
    unfold request_randomness
    rw [if_neg (by omega), if_pos hs]
  · intro h hs h0
    unfold request_randomness
    rw [if_neg (by omega), if_neg (by simp [hs]), if_pos (by omega)]
  · intro h hs h0
    unfold request_randomness
    rw [if_neg (by omega), if_neg (by simp [hs]), if_neg (by omega)]

/-- Witness for C7, Scenario A: with `end_time = 3600` and two entries, the
call at t=10 fails with `RoundNotEnded` and the call at t=3601 succeeds. -/
theorem request_randomness_spec_witness :
    ((10 : Int) < roundA.end_time ∧
      request_randomness roundA 10 =
        Except.error RecoveryRoomError.RoundNotEnded) ∧
    (roundA.end_time ≤ 3601 ∧ roundA.status = RoundStatus.Active ∧
      0 < roundA.total_token_entries ∧
      request_randomness roundA 3601 =
        Except.ok { roundA with status := RoundStatus.VrfRequested }) :=
  ⟨⟨by decide, (request_randomness_spec roundA 10).1 (by decide)⟩,
   ⟨by decide, rfl, by decide,
    (request_randomness_spec roundA 3601).2.2.2 (by decide) rfl (by decide)⟩⟩

/-- Claim C8 (register_token is modelled from the spec, see its doc
comment): a successful registration appends an entry with
`submission_count = 0`, and a second registration of the same token in the
same pool fails with `DuplicateToken` instead of resetting the counter. -/
theorem register_token_spec (pool : TokenPool) (mint : Nat)
    (ticker color : String) :
    (∀ pool', register_token pool mint ticker color = Except.ok pool' →
      pool'.entries = pool.entries ++
        [{ token_mint := mint
           ticker := ticker
           submission_count := 0
           color := color }] ∧
      ∀ t c, register_token pool' mint t c =
        Except.error RecoveryRoomError.DuplicateToken) ∧
    ((∃ e ∈ pool.entries, e.token_mint = mint) →
      register_token pool mint ticker color =
        Except.error RecoveryRoomError.DuplicateToken) := by
  constructor
  · intro pool' h
    unfold register_token at h
    split at h
    · exact absurd h (by simp)
    · rw [Except.ok.injEq] at h
      have hent : pool'.entries = pool.entries ++
          [{ token_mint := mint
             ticker := ticker
             submission_count := 0
             color := color }] := by
        rw [← h]
      refine ⟨hent, ?_⟩
      intro t c
      unfold register_token
      rw [if_pos]
      rw [hent]
      simp [List.any_eq_true]
  · intro ⟨e, he, hm⟩
    unfold register_token
    rw [if_pos]
    simp only [List.any_eq_true, decide_eq_true_eq]
    exact ⟨e, he, hm⟩

/-- Witness for C8: registering token 5 in the empty pool creates a
zero-count entry, and registering it again fails with `DuplicateToken`. -/
theorem register_token_spec_witness :
    (register_token poolE 5 "Z" "blue" = Except.ok
      { poolE with entries := [
          { token_mint := 5, ticker := "Z", submission_count := 0,
            color := "blue" }] }) ∧
    register_token
      { poolE with entries := [
          { token_mint := 5, ticker := "Z", submission_count := 0,
            color := "blue" }] } 5 "Z" "blue" =
      Except.error RecoveryRoomError.DuplicateToken :=
  ⟨rfl,
   ((register_token_spec poolE 5 "Z" "blue").1 _ rfl).2 "Z" "blue"⟩

/-! Lemmas about the winner-selection scan. -/

theorem sqrtB_pos : ∀ n, 0 < n → 0 < sqrtB n := by
  intro n hn
  unfold sqrtB
  split
  · norm_num
  · split
    · norm_num
    · exact_mod_cast hn

theorem scanSelect_mem (target acc : ℚ) (l : List (Nat × ℚ)) (t : Nat)
    (h : scanSelect target acc l = some t) : t ∈ l.map Prod.fst := by
  induction l generalizing acc with
  | nil => simp [scanSelect] at h
  | cons p rest ih =>
      obtain ⟨tok, w⟩ := p
      simp only [scanSelect] at h
      split at h
      · rw [Option.some.injEq] at h
        subst h
        simp
      · exact List.mem_cons_of_mem _ (ih _ h)

theorem scanSelect_none (target acc : ℚ) (l : List (Nat × ℚ))
    (h : scanSelect target acc l = none) :
    l = [] ∨ acc + (l.map Prod.snd).sum < target := by
  induction l generalizing acc with
  | nil => exact Or.inl rfl
  | cons p rest ih =>
      obtain ⟨tok, w⟩ := p
      simp only [scanSelect] at h
      split at h
      · exact absurd h (by simp)
      · rename_i hc
        right
        rcases ih (acc + w) h with h0 | h1
        · subst h0
          simp only [List.map_cons, List.map_nil, List.sum_cons,
            List.sum_nil, add_zero]
          linarith [not_le.mp hc]
        · simp only [List.map_cons, List.sum_cons]
          linarith

theorem scanSelect_first (target : ℚ) (acc : ℚ) (l : List (Nat × ℚ)) (t : Nat)
    (h : scanSelect target acc l = some t) :
    ∃ i, ∃ hi : i < l.length,
      t = (l.get ⟨i, hi⟩).1 ∧
      target ≤ acc + ((l.map Prod.snd).take (i + 1)).sum ∧
      ∀ j < i, acc + ((l.map Prod.snd).take (j + 1)).sum < target := by
  induction l generalizing acc with
  | nil => simp [scanSelect] at h
  | cons p rest ih =>
      obtain ⟨tok, w⟩ := p
      simp only [scanSelect] at h
      split at h
      · rename_i hc
        rw [Option.some.injEq] at h
        subst h
        refine ⟨0, by simp, rfl, ?_, ?_⟩
        · simpa using hc
        · intro j hj
          omega
      · rename_i hc
        obtain ⟨i, hi, ht, hub, hlb⟩ := ih (acc + w) h
        refine ⟨i + 1, by simpa using Nat.succ_lt_succ hi, by simpa using ht,
          ?_, ?_⟩
        · simp only [List.map_cons, List.take_succ_cons, List.sum_cons]
          linarith
        · intro j hj
          cases j with
          | zero =>
              simp only [List.map_cons, List.take_succ_cons, List.take_zero,
                List.sum_cons, List.sum_nil, add_zero]
              linarith [not_le.mp hc]
          | succ j' =>
              have hrec := hlb j' (by omega)
              simp only [List.map_cons, List.take_succ_cons, List.sum_cons]
              linarith

theorem poolWeights_map_fst (sqrtf : Nat → ℚ)
    (entries : List TokenPoolEntry) :
    (poolWeights sqrtf entries).map Prod.fst =
      (qualifying entries).map (fun e => e.token_mint) := by
  simp [poolWeights, List.map_map]

theorem poolWeights_map_snd (sqrtf : Nat → ℚ)
    (entries : List TokenPoolEntry) :
    (poolWeights sqrtf entries).map Prod.snd =
      (qualifying entries).map (fun e => sqrtf e.submission_count) := by
  simp [poolWeights, List.map_map]

theorem totalWeight_pos (sqrtf : Nat → ℚ) (entries : List TokenPoolEntry)
    (hpos : ∀ n, 0 < n → 0 < sqrtf n)
    (hq : ∃ e ∈ entries, 0 < e.submission_count) :
    0 < totalWeight sqrtf entries := by
  obtain ⟨e, he, hc⟩ := hq
  have hqe : e ∈ qualifying entries :=
    List.mem_filter.mpr ⟨he, by simpa using hc⟩
  unfold totalWeight
  rw [poolWeights_map_snd]
  apply List.sum_pos
  · intro x hx
    obtain ⟨e', he', hx'⟩ := List.mem_map.mp hx
    have : 0 < e'.submission_count := by
      have := List.of_mem_filter he'
      simpa using this
    exact hx' ▸ hpos _ this
  · intro hnil
    rw [List.map_eq_nil_iff] at hnil
    rw [hnil] at hqe
    simp at hqe

theorem totalWeight_zero (sqrtf : Nat → ℚ) (entries : List TokenPoolEntry)
    (h0 : ∀ e ∈ entries, e.submission_count = 0) :
    totalWeight sqrtf entries = 0 := by
  have hq : qualifying entries = [] := by
    rw [qualifying, List.filter_eq_nil_iff]
    intro e he
    simp [h0 e he]
  simp [totalWeight, poolWeights, hq]

theorem selectTarget_lt_total (sqrtf : Nat → ℚ)
    (entries : List TokenPoolEntry) (v : Nat) (hv : v < 2 ^ 128)
    (ht : 0 < totalWeight sqrtf entries) :
    selectTarget sqrtf entries v < totalWeight sqrtf entries := by
  unfold selectTarget u128MaxAsF64
  have h1 : ((v : ℚ) / 2 ^ 128) < 1 := by
    rw [div_lt_one (by positivity)]
    exact_mod_cast hv
  calc ((v : ℚ) / 2 ^ 128) * totalWeight sqrtf entries
      < 1 * totalWeight sqrtf entries := mul_lt_mul_of_pos_right h1 ht
    _ = totalWeight sqrtf entries := one_mul _

theorem getLast?_mem {α : Type} (l : List α) (a : α)
    (h : l.getLast? = some a) : a ∈ l := by
  induction l with
  | nil => simp at h
  | cons x rest ih =>
      cases hr : rest with
      | nil =>
          rw [hr] at h
          simp [List.getLast?] at h
          simp [h]
      | cons y ys =>
          rw [hr] at ih h
          rw [List.getLast?_cons_cons] at h
          exact List.mem_cons_of_mem _ (ih h)

theorem select_ok_mem (sqrtf : Nat → ℚ) (pool : TokenPool) (v : Nat)
    (t : Nat)
    (h : select_winner_sqrt_weighted sqrtf pool v = SelectResult.ok t) :
    ∃ e ∈ pool.entries, e.token_mint = t := by
  unfold select_winner_sqrt_weighted at h
  split at h
  · split at h
    · rename_i tok hsc
      rw [SelectResult.ok.injEq] at h
      subst h
      have hm := scanSelect_mem _ _ _ _ hsc
      rw [poolWeights_map_fst] at hm
      obtain ⟨e, he, hmint⟩ := List.mem_map.mp hm
      exact ⟨e, List.mem_of_mem_filter he, hmint⟩
    · split at h
      · rename_i e hlast
        rw [SelectResult.ok.injEq] at h
        exact ⟨e, getLast?_mem _ _ hlast, h⟩
      · exact absurd h (by simp)
  · exact absurd h (by simp)

theorem select_ok_of_qualifying (sqrtf : Nat → ℚ) (pool : TokenPool)
    (v : Nat) (hpos : ∀ n, 0 < n → 0 < sqrtf n)
    (hq : ∃ e ∈ pool.entries, 0 < e.submission_count) :
    ∃ t, select_winner_sqrt_weighted sqrtf pool v = SelectResult.ok t := by
  have ht := totalWeight_pos sqrtf pool.entries hpos hq
  unfold select_winner_sqrt_weighted
  rw [if_pos ht]
  cases hsc : scanSelect (selectTarget sqrtf pool.entries v) 0
      (poolWeights sqrtf pool.entries) with
  | some t => exact ⟨t, rfl⟩
  | none =>
      obtain ⟨e, he, _⟩ := hq
      have hne : pool.entries ≠ [] := by
        intro h0
        rw [h0] at he
        simp at he
      cases hlast : pool.entries.getLast? with
      | some e' => exact ⟨e'.token_mint, rfl⟩
      | none => exact absurd (List.getLast?_eq_none_iff.mp hlast) hne

/-- Claim C2: with positive total weight and any 16-byte randomness value
(`vrf_value < 2 ^ 128`), the selected winner is the first entry — in the
pool's stored order among entries with `submission_count > 0` — whose
cumulative weight reaches `target = vrf_value / 2 ^ 128 * total_weight`;
in exact arithmetic the target always lies strictly below the total
weight, so the scan never exhausts and the fallback clause is vacuous. -/
theorem select_winner_first_match (sqrtf : Nat → ℚ) (pool : TokenPool)
    (vrf_value : Nat) (hpos : ∀ n, 0 < n → 0 < sqrtf n)
    (hq : ∃ e ∈ pool.entries, 0 < e.submission_count)
    (hv : vrf_value < 2 ^ 128) :
    ∃ i, ∃ hi : i < (qualifying pool.entries).length,
      select_winner_sqrt_weighted sqrtf pool vrf_value =
        SelectResult.ok
          ((qualifying pool.entries).get ⟨i, hi⟩).token_mint ∧
      selectTarget sqrtf pool.entries vrf_value ≤
        cumWeight sqrtf pool.entries (i + 1) ∧
      ∀ j < i, cumWeight sqrtf pool.entries (j + 1) <
        selectTarget sqrtf pool.entries vrf_value := by
  have ht := totalWeight_pos sqrtf pool.entries hpos hq
  have hlt := selectTarget_lt_total sqrtf pool.entries vrf_value hv ht
  have hsome : ∃ t, scanSelect (selectTarget sqrtf pool.entries vrf_value) 0
      (poolWeights sqrtf pool.entries) = some t := by
    cases hcase : scanSelect (selectTarget sqrtf pool.entries vrf_value) 0
        (poolWeights sqrtf pool.entries) with
    | some t => exact ⟨t, rfl⟩
    | none =>
        rcases scanSelect_none _ _ _ hcase with h0 | h1
        · rw [h0] at hcase
          exfalso
          have : totalWeight sqrtf pool.entries = 0 := by
            simp [totalWeight, h0]
          exact absurd this (ne_of_gt ht)
        · exfalso
          rw [zero_add] at h1
          exact absurd (h1.trans hlt) (lt_irrefl _)
  obtain ⟨t, hsc⟩ := hsome
  obtain ⟨i, hi, ht', hub, hlb⟩ := scanSelect_first _ _ _ _ hsc
  have hlen : (poolWeights sqrtf pool.entries).length =
      (qualifying pool.entries).length := by
    simp [poolWeights]
  refine ⟨i, hlen ▸ hi, ?_, ?_, ?_⟩
  · have hsel : select_winner_sqrt_weighted sqrtf pool vrf_value =
        SelectResult.ok t := by
      unfold select_winner_sqrt_weighted
      rw [if_pos ht, hsc]
    rw [hsel, SelectResult.ok.injEq, ht']
    simp [poolWeights, List.getElem_map]
  · rw [cumWeight]
    simpa using hub
  · intro j hj
    have := hlb j hj
    rw [cumWeight]
    simpa using this

/-- Witness for C2: Scenario B — token X (4 submissions, weight 2) and
token Y (1 submission, weight 1), randomness `2 ^ 127` (`target = 1.5`);
the winner is X, the first qualifying entry. -/
theorem select_winner_first_match_witness :
    (∃ e ∈ poolB.entries, 0 < e.submission_count) ∧
    2 ^ 127 < 2 ^ 128 ∧
    select_winner_sqrt_weighted sqrtB poolB (2 ^ 127) =
      SelectResult.ok entryX.token_mint ∧
    (∃ i, ∃ hi : i < (qualifying poolB.entries).length,
      select_winner_sqrt_weighted sqrtB poolB (2 ^ 127) =
        SelectResult.ok
          ((qualifying poolB.entries).get ⟨i, hi⟩).token_mint ∧
      selectTarget sqrtB poolB.entries (2 ^ 127) ≤
        cumWeight sqrtB poolB.entries (i + 1) ∧
      ∀ j < i, cumWeight sqrtB poolB.entries (j + 1) <
        selectTarget sqrtB poolB.entries (2 ^ 127)) :=
  ⟨⟨entryX, by decide, by decide⟩, by norm_num,
   by
     norm_num [select_winner_sqrt_weighted, totalWeight, poolWeights,
       qualifying, selectTarget, scanSelect, u128MaxAsF64, sqrtB, poolB,
       entryX, entryY],
   select_winner_first_match sqrtB poolB (2 ^ 127) sqrtB_pos
     ⟨entryX, by decide, by decide⟩ (by norm_num)⟩

/-- Claim C9: `consume_randomness` never compares the supplied pool's
`round_id` with the round being resolved — with a mismatched pool it still
succeeds (given `VrfRequested` status, a non-zero buffer and a qualifying
entry) and the stored winner is drawn from that mismatched pool. -/
theorem consume_randomness_pool_unchecked (protocol : ProtocolState)
    (round : RoundState) (pool : TokenPool) (result_buffer : List Nat)
    (sqrtf : Nat → ℚ) (hpos : ∀ n, 0 < n → 0 < sqrtf n)
    (_hmismatch : pool.round_id ≠ round.round_id)
    (hs : round.status = RoundStatus.VrfRequested)
    (hb : result_buffer ≠ zero32)
    (hq : ∃ e ∈ pool.entries, 0 < e.submission_count) :
    ∃ protocol' round' w,
      consume_randomness protocol round result_buffer pool sqrtf =
        some (Except.ok (protocol', round')) ∧
      round'.winner_token = some w ∧
      ∃ e ∈ pool.entries, e.token_mint = w := by
  obtain ⟨t, hsel⟩ := select_ok_of_qualifying sqrtf pool
    (u128_from_le (result_buffer.take 16)) hpos hq
  have hmem := select_ok_mem _ _ _ _ hsel
  unfold consume_randomness
  rw [if_neg (by simp [hs]), if_neg (by simpa using hb)]
  simp only [hsel]
  exact ⟨_, _, t, rfl, rfl, hmem⟩

/-- Witness for C9: resolving `roundReq` (round 1) against `poolM`
(round 99) succeeds and stores a winner from `poolM`. -/
theorem consume_randomness_pool_unchecked_witness :
    poolM.round_id ≠ roundReq.round_id ∧
    roundReq.status = RoundStatus.VrfRequested ∧
    buf7 ≠ zero32 ∧
    (∃ e ∈ poolM.entries, 0 < e.submission_count) ∧
    ∃ protocol' round' w,
      consume_randomness proto0 roundReq buf7 poolM sqrtB =
        some (Except.ok (protocol', round')) ∧
      round'.winner_token = some w ∧
      ∃ e ∈ poolM.entries, e.token_mint = w :=
  ⟨by decide, rfl, by decide, ⟨entryX, by decide, by decide⟩,
   consume_randomness_pool_unchecked proto0 roundReq poolM buf7 sqrtB
     sqrtB_pos (by decide) rfl (by decide)
     ⟨entryX, by decide, by decide⟩⟩

/-- Claim C10: `select_winner_sqrt_weighted` is total — it never reaches
the `entries.last().unwrap()` panic (positive total weight forces a
non-empty pool), returns `NoParticipants` when no entry has a positive
`submission_count`, and otherwise returns some winner. -/
theorem select_winner_total (sqrtf : Nat → ℚ) (pool : TokenPool)
    (vrf_value : Nat) (hpos : ∀ n, 0 < n → 0 < sqrtf n) :
    select_winner_sqrt_weighted sqrtf pool vrf_value ≠ SelectResult.panic ∧
    ((∀ e ∈ pool.entries, e.submission_count = 0) →
      select_winner_sqrt_weighted sqrtf pool vrf_value =
        SelectResult.err RecoveryRoomError.NoParticipants) ∧
    ((∃ e ∈ pool.entries, 0 < e.submission_count) →
      ∃ t, select_winner_sqrt_weighted sqrtf pool vrf_value =
        SelectResult.ok t) := by
  have herr : (∀ e ∈ pool.entries, e.submission_count = 0) →
      select_winner_sqrt_weighted sqrtf pool vrf_value =
        SelectResult.err RecoveryRoomError.NoParticipants := by
    intro h0
    unfold select_winner_sqrt_weighted
    rw [if_neg]
    rw [totalWeight_zero sqrtf pool.entries h0]
    exact lt_irrefl 0
  refine ⟨?_, herr, select_ok_of_qualifying sqrtf pool vrf_value hpos⟩
  by_cases hq : ∃ e ∈ pool.entries, 0 < e.submission_count
  · obtain ⟨t, hok⟩ := select_ok_of_qualifying sqrtf pool vrf_value hpos hq
    rw [hok]
    simp
  · push_neg at hq
    have h0 : ∀ e ∈ pool.entries, e.submission_count = 0 := fun e he =>
      Nat.le_zero.mp (hq e he)
    rw [herr h0]
    simp

/-- Witness for C10 at Scenario B's pool: no panic and a winner exists. -/
theorem select_winner_total_witness :
    select_winner_sqrt_weighted sqrtB poolB 5 ≠ SelectResult.panic ∧
    ∃ t, select_winner_sqrt_weighted sqrtB poolB 5 = SelectResult.ok t :=
  ⟨(select_winner_total sqrtB poolB 5 sqrtB_pos).1,
   (select_winner_total sqrtB poolB 5 sqrtB_pos).2.2
     ⟨entryX, by decide, by decide⟩⟩

end RecoveryRoom
